import Mathlib

/-!
Verification of the PRI-training session engine: the scoring normalizer
(`calculatePRI`), the Fisher-Yates shuffle (`shuffleArray`), the two round
generators, the session finalizer (`endGame`) and the session timer
(`useGameTimer`), shallowly embedded from the TypeScript source.
-/

namespace PRITraining

/-- Game mode, embedding the TS union `GameType = 'symbol-match' | 'coding' | null`. -/
inductive GameType where
  | symbolMatch
  | coding
  | nullGame
deriving DecidableEq, Repr

/-- Scoring normalizer, embedding `calculatePRI` (source lines 38-46).
JS numbers are modelled as rationals; `Math.round x` is `⌊x + 1/2⌋`, which is
Mathlib's `round` on `ℚ`; the app only ever supplies natural-number scores,
mistake counts and elapsed seconds. -/
def calculatePRI (score mistakes elapsedSeconds : ℕ) (gameType : GameType) : ℤ :=
  if elapsedSeconds < 10 then 0
  else
    let rawScore : ℚ := max 0 ((score : ℚ) - (mistakes : ℚ) * 1.0)
    let ratePerMinute : ℚ := rawScore / (elapsedSeconds : ℚ) * 60
    let mean : ℚ := if gameType = GameType.symbolMatch then 45 else 30
    let sd : ℚ := if gameType = GameType.symbolMatch then 12 else 8
    let pri : ℚ := 100 + ((ratePerMinute - mean) / sd) * 15
    max 40 (min 160 (round pri))

/-- C1: for every score, mistakes and elapsedSeconds ≥ 10, `calculatePRI` returns
clamp(round(100 + (((max(0, score − mistakes) / elapsed · 60) − mean) / sd) · 15), 40, 160)
with (mean, sd) = (45, 12) in match mode and (30, 8) in coding mode; in
particular the index of (30, 5, 60, match) is 75. -/
theorem calculatePRI_formula (score mistakes elapsedSeconds : ℕ)
    (h : 10 ≤ elapsedSeconds) :
    (calculatePRI score mistakes elapsedSeconds GameType.symbolMatch =
      max 40 (min 160 (round
        (100 + ((max 0 ((score : ℚ) - mistakes) / elapsedSeconds * 60 - 45) / 12) * 15))) ∧
    calculatePRI score mistakes elapsedSeconds GameType.coding =
      max 40 (min 160 (round
        (100 + ((max 0 ((score : ℚ) - mistakes) / elapsedSeconds * 60 - 30) / 8) * 15)))) ∧
    calculatePRI 30 5 60 GameType.symbolMatch = 75 := by
  refine ⟨⟨?_, ?_⟩, ?_⟩ <;>
  · simp only [calculatePRI, if_neg (by omega : ¬ elapsedSeconds < 10)]
    norm_num [round_ofNat,
      eq_false (fun h => GameType.noConfusion h : GameType.coding ≠ GameType.symbolMatch)]

/-- Witness for C1 at score = 30, mistakes = 5, elapsed = 60 in match mode. -/
theorem calculatePRI_formula_witness :
    calculatePRI 30 5 60 GameType.symbolMatch = 75 :=
  (calculatePRI_formula 30 5 60 (by norm_num)).2

/-- C5: for every score, mistakes and mode, `calculatePRI` lies in [40, 160]
whenever elapsedSeconds ≥ 10, and is exactly the sentinel 0 whenever
elapsedSeconds < 10. -/
theorem calculatePRI_range (score mistakes elapsedSeconds : ℕ) (gameType : GameType) :
    (10 ≤ elapsedSeconds →
      40 ≤ calculatePRI score mistakes elapsedSeconds gameType ∧
      calculatePRI score mistakes elapsedSeconds gameType ≤ 160) ∧
    (elapsedSeconds < 10 → calculatePRI score mistakes elapsedSeconds gameType = 0) := by
  constructor
  · intro h
    simp only [calculatePRI, if_neg (by omega : ¬ elapsedSeconds < 10)]
    exact ⟨le_max_left _ _, max_le (by norm_num) (min_le_left _ _)⟩
  · intro h
    simp [calculatePRI, if_pos h]

/-- Witness for C5 at (0, 0, 60, coding) and (7, 3, 5, symbolMatch). -/
theorem calculatePRI_range_witness :
    (40 ≤ calculatePRI 0 0 60 GameType.coding ∧
      calculatePRI 0 0 60 GameType.coding ≤ 160) ∧
    calculatePRI 7 3 5 GameType.symbolMatch = 0 :=
  ⟨(calculatePRI_range 0 0 60 GameType.coding).1 (by norm_num),
   (calculatePRI_range 7 3 5 GameType.symbolMatch).2 (by norm_num)⟩

/-- One iteration of the Fisher-Yates loop body of `shuffleArray` (source
line 18): exchange the elements at positions i and j. Out-of-range indices
leave the list unchanged; the loop only produces in-range indices. -/
def listSwap {α : Type} (l : List α) (i j : Nat) : List α :=
  match l[i]?, l[j]? with
  | some x, some y => (l.set i y).set j x
  | _, _ => l

theorem listSwap_perm {α : Type} [DecidableEq α] (l : List α) (i j : Nat) :
    List.Perm (listSwap l i j) l := by
  unfold listSwap
  cases hi : l[i]? with
  | none => exact List.Perm.refl l
  | some x =>
    cases hj : l[j]? with
    | none => exact List.Perm.refl l
    | some y =>
      obtain ⟨hil, hix⟩ := List.getElem?_eq_some_iff.mp hi
      obtain ⟨hjl, hjy⟩ := List.getElem?_eq_some_iff.mp hj
      have hx_mem : x ∈ l := hix ▸ l.getElem_mem hil
      have hy_mem : y ∈ l := hjy ▸ l.getElem_mem hjl
      have hjl2 : j < (l.set i y).length := by simpa using hjl
      have hmid : (l.set i y)[j] = y := by
        by_cases hij : i = j
        · subst hij
          simp
        · rw [List.getElem_set_ne hij]
          exact hjy
      show List.Perm ((l.set i y).set j x) l
      rw [List.perm_iff_count]
      intro a
      rw [List.count_set x a (l.set i y) j hjl2, List.count_set y a l i hil,
        hmid, hix]
      have hxc : (if x = a then 1 else 0) ≤ l.count a := by
        by_cases hxa : x = a
        · simpa [hxa] using hx_mem
        · simp [hxa]
      by_cases hxa : x = a <;> by_cases hya : y = a <;>
        simp only [hxa, hya, beq_iff_eq, if_pos, if_neg, beq_self_eq_true,
          if_true, reduceIte] <;>
        simp_all

/-- Fisher-Yates shuffle loop, iterating `listSwap` from index n down to 1.
At loop index i the source draws `j = Math.floor(Math.random() * (i + 1))`,
a value in [0, i]; the stream of random draws is modelled by `r`, with the
draw at loop index i taken mod (i + 1). -/
def shuffleAux {α : Type} (r : Nat → Nat) : Nat → List α → List α
  | 0, l => l
  | i + 1, l => shuffleAux r i (listSwap l (i + 1) (r (i + 1) % (i + 2)))

/-- Unbiased shuffle, embedding `shuffleArray` (source lines 14-21): copy the
array and run the Fisher-Yates loop for i from length−1 down to 1. -/
def shuffleArray {α : Type} (l : List α) (r : Nat → Nat) : List α :=
  shuffleAux r (l.length - 1) l

theorem shuffleAux_perm {α : Type} [DecidableEq α] (r : Nat → Nat) (n : Nat)
    (l : List α) : List.Perm (shuffleAux r n l) l := by
  induction n generalizing l with
  | zero => exact List.Perm.refl l
  | succ i ih => exact (ih _).trans (listSwap_perm _ _ _)

theorem shuffleArray_perm {α : Type} [DecidableEq α] (l : List α) (r : Nat → Nat) :
    List.Perm (shuffleArray l r) l :=
  shuffleAux_perm r _ l

theorem shuffleArray_length {α : Type} [DecidableEq α] (l : List α) (r : Nat → Nat) :
    (shuffleArray l r).length = l.length :=
  (shuffleArray_perm l r).length_eq

theorem shuffleArray_nodup {α : Type} [DecidableEq α] {l : List α} (h : l.Nodup)
    (r : Nat → Nat) : (shuffleArray l r).Nodup :=
  ((shuffleArray_perm l r).nodup_iff).mpr h

theorem shuffleArray_mem {α : Type} [DecidableEq α] {l : List α} {a : α}
    (r : Nat → Nat) : a ∈ shuffleArray l r ↔ a ∈ l :=
  (shuffleArray_perm l r).mem_iff

attribute [irreducible] shuffleArray

/-- Symbol catalogue, embedding `ALL_SYMBOLS` (source lines 9-12): the 15
distinct lucide icons Star, Circle, Triangle, Square, Hexagon, Diamond, Cloud,
Sun, Moon, Heart, Zap, Flame, Droplet, Leaf, Snowflake, identified here by
their positions 0..14 in the catalogue. -/
def ALL_SYMBOLS : List Nat := [0, 1, 2, 3, 4, 5, 6, 7, 8, 9, 10, 11, 12, 13, 14]

theorem ALL_SYMBOLS_nodup : ALL_SYMBOLS.Nodup := by decide

theorem ALL_SYMBOLS_length : ALL_SYMBOLS.length = 15 := by decide

/-- One symbol-search trial: the component state `targets`, `searchGroup`
and `isMatch` set by the match-mode round generator. -/
structure MatchTrial where
  targets : List Nat
  searchSet : List Nat
  isMatch : Bool
deriving DecidableEq, Repr

namespace SymbolMatchGame

/-- Trial generator, embedding `SymbolMatchGame.generateRound` (source lines
289-307). Randomness is explicit: `r1` drives the pool shuffle, `coin` is the
outcome of `Math.random() > 0.5`, `pick` drives `Math.floor(Math.random() * 2)`
choosing which target to include, and `r2` drives the shuffle of the
match-branch search group. -/
def generateRound (r1 : Nat → Nat) (coin : Bool) (pick : Nat) (r2 : Nat → Nat) :
    MatchTrial :=
  let shuffled := shuffleArray ALL_SYMBOLS r1
  let newTargets := shuffled.take 2
  if coin then
    let targetToInclude := newTargets.getD (pick % 2) 0
    let others := (shuffled.drop 2).take 4
    { targets := newTargets,
      searchSet := shuffleArray (targetToInclude :: others) r2,
      isMatch := true }
  else
    { targets := newTargets,
      searchSet := (shuffled.drop 2).take 5,
      isMatch := false }

theorem generateRound_false (r1 : Nat → Nat) (pick : Nat) (r2 : Nat → Nat) :
    generateRound r1 false pick r2 =
      { targets := (shuffleArray ALL_SYMBOLS r1).take 2,
        searchSet := ((shuffleArray ALL_SYMBOLS r1).drop 2).take 5,
        isMatch := false } := rfl

theorem generateRound_true (r1 : Nat → Nat) (pick : Nat) (r2 : Nat → Nat) :
    generateRound r1 true pick r2 =
      { targets := (shuffleArray ALL_SYMBOLS r1).take 2,
        searchSet := shuffleArray
          ((((shuffleArray ALL_SYMBOLS r1).take 2).getD (pick % 2) 0) ::
            ((shuffleArray ALL_SYMBOLS r1).drop 2).take 4) r2,
        isMatch := true } := rfl

theorem shuffled_pool_length (r1 : Nat → Nat) :
    (shuffleArray ALL_SYMBOLS r1).length = 15 := by
  rw [shuffleArray_length]
  rfl

theorem targetToInclude_mem (r1 : Nat → Nat) (pick : Nat) :
    ((shuffleArray ALL_SYMBOLS r1).take 2).getD (pick % 2) 0 ∈
      (shuffleArray ALL_SYMBOLS r1).take 2 := by
  have h2 : ((shuffleArray ALL_SYMBOLS r1).take 2).length = 2 := by
    rw [List.length_take, shuffled_pool_length]
    norm_num
  have hp : pick % 2 < ((shuffleArray ALL_SYMBOLS r1).take 2).length := by
    rw [h2]
    exact Nat.mod_lt _ (by norm_num)
  rw [List.getD_eq_getElem?_getD, List.getElem?_eq_getElem hp]
  exact List.getElem_mem hp

/-- C2: for every generated match trial, under either generation branch,
`isMatch` is true iff at least one of the two targets occurs in `searchSet`. -/
theorem generateRound_isMatch_iff (r1 : Nat → Nat) (coin : Bool) (pick : Nat)
    (r2 : Nat → Nat) :
    (generateRound r1 coin pick r2).isMatch = true ↔
      ∃ t ∈ (generateRound r1 coin pick r2).targets,
        t ∈ (generateRound r1 coin pick r2).searchSet := by
  have hnd : (shuffleArray ALL_SYMBOLS r1).Nodup :=
    shuffleArray_nodup ALL_SYMBOLS_nodup r1
  cases coin with
  | false =>
    rw [generateRound_false]
    simp only [Bool.false_eq_true, false_iff, not_exists]
    rintro t ⟨ht, hts⟩
    exact (List.disjoint_take_drop hnd le_rfl) ht (List.take_subset _ _ hts)
  | true =>
    rw [generateRound_true]
    refine ⟨fun _ => ?_, fun _ => rfl⟩
    exact ⟨((shuffleArray ALL_SYMBOLS r1).take 2).getD (pick % 2) 0,
      targetToInclude_mem r1 pick,
      (shuffleArray_mem r2).mpr (List.mem_cons_self _ _)⟩

/-- C10: every generated match trial has exactly two pairwise-distinct targets,
a duplicate-free search set, and when `isMatch` is false neither target occurs
in the search set. -/
theorem generateRound_invariants (r1 : Nat → Nat) (coin : Bool) (pick : Nat)
    (r2 : Nat → Nat) :
    (generateRound r1 coin pick r2).targets.length = 2 ∧
    (generateRound r1 coin pick r2).targets.Nodup ∧
    (generateRound r1 coin pick r2).searchSet.Nodup ∧
    ((generateRound r1 coin pick r2).isMatch = false →
      ∀ t ∈ (generateRound r1 coin pick r2).targets,
        t ∉ (generateRound r1 coin pick r2).searchSet) := by
  have hnd : (shuffleArray ALL_SYMBOLS r1).Nodup :=
    shuffleArray_nodup ALL_SYMBOLS_nodup r1
  have htlen : ((shuffleArray ALL_SYMBOLS r1).take 2).length = 2 := by
    rw [List.length_take, shuffled_pool_length]
    norm_num
  have htnd : ((shuffleArray ALL_SYMBOLS r1).take 2).Nodup :=
    (List.take_sublist 2 _).nodup hnd
  cases coin with
  | false =>
    rw [generateRound_false]
    refine ⟨htlen, htnd, ?_, ?_⟩
    · exact ((List.take_sublist 5 _).trans (List.drop_sublist 2 _)).nodup hnd
    · intro _ t ht hts
      exact (List.disjoint_take_drop hnd le_rfl) ht (List.take_subset _ _ hts)
  | true =>
    rw [generateRound_true]
    refine ⟨htlen, htnd, ?_, fun h => absurd h (by simp)⟩
    refine shuffleArray_nodup (List.nodup_cons.mpr ⟨?_, ?_⟩) r2
    · intro hmem
      exact (List.disjoint_take_drop hnd le_rfl) (targetToInclude_mem r1 pick)
        (List.take_subset _ _ hmem)
    · exact ((List.take_sublist 4 _).trans (List.drop_sublist 2 _)).nodup hnd

/-- Witness for C10 under constant-zero randomness in the no-match branch:
target symbol 1 is not in the search set. -/
theorem generateRound_invariants_witness :
    (1 : Nat) ∉ (generateRound (fun _ => 0) false 0 (fun _ => 0)).searchSet :=
  (generateRound_invariants (fun _ => 0) false 0 (fun _ => 0)).2.2.2 rfl 1
    (by decide!)

end SymbolMatchGame

namespace CodingGame

/-- Initial value of the `currentNumber` state (source line 394):
`useState<number>(1)`. -/
def initialCurrentNumber : Nat := 1

/-- Digit → symbol assignment built by `CodingGame.generateRound` (source
lines 404-409): the `Map` holding `(i, shuffled[i - 1])` for i = 1..5, as an
association list in insertion order. -/
def newMap (r1 : Nat → Nat) : List (Nat × Nat) :=
  (List.range 5).map (fun k => (k + 1, (shuffleArray ALL_SYMBOLS r1).getD k 0))

/-- Button order built by `CodingGame.generateRound` (source line 410):
an independent shuffle of [1, 2, 3, 4, 5]. -/
def newButtonOrder (r2 : Nat → Nat) : List Nat :=
  shuffleArray [1, 2, 3, 4, 5] r2

/-- Target-digit rejection loop of `CodingGame.generateRound` (source lines
412-416): repeatedly draw `Math.floor(Math.random() * 5) + 1` until the draw
differs from the previous `currentNumber`. The k-th draw of the random stream
`r` is `r k % 5 + 1`; `fuel` bounds the number of modelled draws (the
do-while only diverges on an everywhere-rejected stream, an event of
probability zero for a real random source). -/
def drawTarget (cur : Nat) (r : Nat → Nat) : Nat → Nat → Option Nat
  | _, 0 => none
  | k, fuel + 1 =>
    if r k % 5 + 1 = cur then drawTarget cur r (k + 1) fuel
    else some (r k % 5 + 1)

/-- The target digit of the first trial of a coding session: the rejection
loop runs against the initial `currentNumber` of 1. -/
def firstTrialTarget (r : Nat → Nat) (fuel : Nat) : Option Nat :=
  drawTarget initialCurrentNumber r 0 fuel

/-- Target digits of the first n trials of a coding session, threading each
round's drawn digit into the next round's rejection loop. `r i` is the random
stream consumed by round i; a round cut off by fuel ends the modelled trace. -/
def sessionTargetsAux (r : Nat → Nat → Nat) (fuel : Nat) :
    Nat → Nat → Nat → List Nat
  | _, _, 0 => []
  | cur, idx, n + 1 =>
    match drawTarget cur (r idx) 0 fuel with
    | none => []
    | some v => v :: sessionTargetsAux r fuel v (idx + 1) n

/-- Target digits of the first n trials, starting from the initial
`currentNumber`. -/
def sessionTargets (r : Nat → Nat → Nat) (fuel n : Nat) : List Nat :=
  sessionTargetsAux r fuel initialCurrentNumber 0 n

theorem drawTarget_ne (cur : Nat) (r : Nat → Nat) (k fuel v : Nat)
    (h : drawTarget cur r k fuel = some v) : v ≠ cur ∧ 1 ≤ v ∧ v ≤ 5 := by
  induction fuel generalizing k with
  | zero => simp [drawTarget] at h
  | succ n ih =>
    rw [drawTarget] at h
    by_cases hc : r k % 5 + 1 = cur
    · rw [if_pos hc] at h
      exact ih _ h
    · rw [if_neg hc] at h
      cases h
      have h5 : r k % 5 < 5 := Nat.mod_lt _ (by norm_num)
      exact ⟨hc, by omega, by omega⟩

theorem sessionTargetsAux_chain (r : Nat → Nat → Nat) (fuel : Nat) :
    ∀ (n cur idx : Nat), List.Chain Ne cur (sessionTargetsAux r fuel cur idx n)
  | 0, _, _ => List.Chain.nil
  | n + 1, cur, idx => by
    cases hd : drawTarget cur (r idx) 0 fuel with
    | none => simp [sessionTargetsAux, hd]
    | some v =>
      simp only [sessionTargetsAux, hd]
      exact List.Chain.cons (Ne.symm (drawTarget_ne cur (r idx) 0 fuel v hd).1)
        (sessionTargetsAux_chain r fuel n v (idx + 1))

theorem sessionTargets_chain (r : Nat → Nat → Nat) (fuel n : Nat) :
    List.Chain' Ne (sessionTargets r fuel n) := by
  have h : List.Chain' Ne (initialCurrentNumber ::
      sessionTargetsAux r fuel initialCurrentNumber 0 n) :=
    sessionTargetsAux_chain r fuel n initialCurrentNumber 0
  exact h.tail

/-- C6: in every coding session, the target digit of each trial k ≥ 2 differs
from the target digit of trial k − 1 (positions i and i + 1 of the session's
target-digit trace). -/
theorem sessionTargets_no_repeat (r : Nat → Nat → Nat) (fuel n i : Nat)
    (h1 : i < (sessionTargets r fuel n).length)
    (h2 : i + 1 < (sessionTargets r fuel n).length) :
    (sessionTargets r fuel n).get ⟨i + 1, h2⟩ ≠
      (sessionTargets r fuel n).get ⟨i, h1⟩ :=
  Ne.symm (List.chain'_iff_get.mp (sessionTargets_chain r fuel n) i (by omega))

/-- Witness for C6: with round randomness r i k = i + k and fuel 2, the first
three targets are [2, 3, 4]; trial 2's digit differs from trial 1's. -/
theorem sessionTargets_no_repeat_witness :
    (sessionTargets (fun i k => i + k) 2 3).get ⟨1, by decide⟩ ≠
      (sessionTargets (fun i k => i + k) 2 3).get ⟨0, by decide⟩ :=
  sessionTargets_no_repeat (fun i k => i + k) 2 3 0 (by decide) (by decide)

/-- C3 counterexample: the claim says every digit 1..5 is reachable as the
first trial's target, but the rejection loop runs against the initial
`currentNumber` of 1, so no random choice sequence makes the first trial's
target digit 1. -/
theorem firstTrialTarget_never_one :
    ¬ ∃ (r : Nat → Nat) (fuel : Nat), firstTrialTarget r fuel = some 1 :=
  fun ⟨r, fuel, h⟩ => (drawTarget_ne initialCurrentNumber r 0 fuel 1 h).1 rfl

/-- C3 amended: on the first trial the rejection loop applies against the
initial `currentNumber` of 1, so the first trial's target digit ranges over
2..5: every digit d with 2 ≤ d ≤ 5 is reachable under some random choice
sequence, and every reachable first-trial target lies in 2..5 (in particular
it is never 1). -/
theorem firstTrialTarget_range :
    (∀ d, 2 ≤ d → d ≤ 5 → ∃ (r : Nat → Nat) (fuel : Nat),
        firstTrialTarget r fuel = some d) ∧
    ∀ (r : Nat → Nat) (fuel d : Nat), firstTrialTarget r fuel = some d →
      2 ≤ d ∧ d ≤ 5 := by
  constructor
  · intro d h2 h5
    refine ⟨fun _ => d - 1, 1, ?_⟩
    have hm : (d - 1) % 5 = d - 1 := Nat.mod_eq_of_lt (by omega)
    simp only [firstTrialTarget, initialCurrentNumber, drawTarget, hm]
    rw [if_neg (by omega)]
    congr 1
    omega
  · intro r fuel d h
    obtain ⟨hne, hlo, hhi⟩ := drawTarget_ne initialCurrentNumber r 0 fuel d h
    have hne1 : d ≠ 1 := hne
    exact ⟨by omega, hhi⟩

/-- Witness for C3's amended claim: the digit 3 is reachable as the first
trial's target. -/
theorem firstTrialTarget_range_witness :
    ∃ (r : Nat → Nat) (fuel : Nat), firstTrialTarget r fuel = some 3 :=
  firstTrialTarget_range.1 3 (by norm_num) (by norm_num)

theorem map_getD_range_eq_take {α : Type} (l : List α) (d : α) (n : Nat)
    (h : n ≤ l.length) :
    (List.range n).map (fun k => l.getD k d) = l.take n := by
  apply List.ext_getElem
  · simp only [List.length_map, List.length_range, List.length_take]
    omega
  · intro i h1 h2
    have hi : i < n := by simpa using h1
    have hil : i < l.length := by omega
    simp [List.getD_eq_getElem?_getD, List.getElem?_eq_getElem hil]

/-- C9: every generated coding trial's digit → symbol mapping assigns exactly
the digits 1..5 (in order) to pairwise-distinct symbols — a bijection onto its
image — and the button order is a permutation of 1..5. -/
theorem generateRound_mapping_bijective (r1 r2 : Nat → Nat) :
    (newMap r1).map Prod.fst = [1, 2, 3, 4, 5] ∧
    ((newMap r1).map Prod.snd).Nodup ∧
    List.Perm (newButtonOrder r2) [1, 2, 3, 4, 5] := by
  refine ⟨rfl, ?_, shuffleArray_perm [1, 2, 3, 4, 5] r2⟩
  have hval : (newMap r1).map Prod.snd = (shuffleArray ALL_SYMBOLS r1).take 5 := by
    rw [newMap, List.map_map]
    exact map_getD_range_eq_take (shuffleArray ALL_SYMBOLS r1) 0 5
      (by rw [SymbolMatchGame.shuffled_pool_length]; norm_num)
  rw [hval]
  exact (List.take_sublist 5 _).nodup (shuffleArray_nodup ALL_SYMBOLS_nodup r1)

end CodingGame

/-- Screen union type (source line 23):
'home' | 'symbol-match' | 'coding' | 'result' | 'stats'. -/
inductive Screen where
  | home
  | symbolMatch
  | coding
  | result
  | stats
deriving DecidableEq, Repr

/-- Time limit union type (source line 25): 30 | 60 | 120 | 'endless'. -/
inductive TimeLimit where
  | sec30
  | sec60
  | sec120
  | endless
deriving DecidableEq, Repr

/-- Numeric value of a fixed time limit; none for endless. -/
def TimeLimit.limitSeconds : TimeLimit → Option Nat
  | .sec30 => some 30
  | .sec60 => some 60
  | .sec120 => some 120
  | .endless => none

/-- Persisted session summary, embedding `StatEntry` (source lines 27-36).
The source sets both `id` (a string, `Date.now().toString()`) and `date`
from the same `Date.now()` call, modelled here as the natural number `now`. -/
structure StatEntry where
  id : Nat
  date : Nat
  gameType : GameType
  pri : ℤ
  score : Nat
  mistakes : Nat
  timeLimit : TimeLimit
  elapsed : Nat
deriving DecidableEq, Repr

/-- The App component state read and written by the finalizer (source lines
81-88): current screen, selected mode and time limit, live counters, the
persisted stats list (mirrored to localStorage on every update), and the
result-screen values. -/
structure AppState where
  screen : Screen
  gameType : GameType
  timeLimit : TimeLimit
  score : Nat
  mistakes : Nat
  stats : List StatEntry
  currentPri : ℤ
  currentElapsed : Nat
deriving DecidableEq, Repr

/-- Session finalizer, embedding `endGame` (source lines 115-136): compute the
index, record it with the final elapsed time, append a new StatEntry to the
stats (and localStorage) only when `finalElapsed >= 10`, and show the result
screen. `now` is the value of `Date.now()` during the call. -/
def endGame (now : Nat) (s : AppState) (finalElapsed : Nat) : AppState :=
  let pri := calculatePRI s.score s.mistakes finalElapsed s.gameType
  if 10 ≤ finalElapsed then
    { s with
      currentPri := pri,
      currentElapsed := finalElapsed,
      stats := s.stats ++ [{ id := now, date := now, gameType := s.gameType,
                             pri := pri, score := s.score,
                             mistakes := s.mistakes, timeLimit := s.timeLimit,
                             elapsed := finalElapsed }],
      screen := Screen.result }
  else
    { s with
      currentPri := pri,
      currentElapsed := finalElapsed,
      screen := Screen.result }

/-- C7: at session finalize a SessionSummary is appended iff the elapsed time
is at least 10 seconds; when appended, it is exactly one new record at the end
of the history, with all previously stored records unchanged and in order;
when elapsed < 10 the stored history is unchanged. -/
theorem endGame_stats (now : Nat) (s : AppState) (finalElapsed : Nat) :
    (10 ≤ finalElapsed →
      (endGame now s finalElapsed).stats =
        s.stats ++ [{ id := now, date := now, gameType := s.gameType,
                      pri := calculatePRI s.score s.mistakes finalElapsed
                        s.gameType,
                      score := s.score, mistakes := s.mistakes,
                      timeLimit := s.timeLimit,
                      elapsed := finalElapsed }]) ∧
    (finalElapsed < 10 → (endGame now s finalElapsed).stats = s.stats) := by
  constructor
  · intro h
    simp only [endGame, if_pos h]
  · intro h
    simp only [endGame, if_neg (by omega : ¬ 10 ≤ finalElapsed)]

/-- Sample live state used by concrete witnesses: a finished symbol-match
session with score 30, mistakes 5 and an empty persisted history. -/
def sampleState : AppState :=
  { screen := Screen.symbolMatch,
    gameType := GameType.symbolMatch,
    timeLimit := TimeLimit.sec60,
    score := 30,
    mistakes := 5,
    stats := [],
    currentPri := 0,
    currentElapsed := 0 }

/-- Witness for C7: finalizing the sample session at elapsed 60 appends its
summary; finalizing it at elapsed 5 leaves the history empty. -/
theorem endGame_stats_witness :
    (endGame 999 sampleState 60).stats =
      sampleState.stats ++ [{ id := 999, date := 999,
                              gameType := GameType.symbolMatch,
                              pri := calculatePRI 30 5 60 GameType.symbolMatch,
                              score := 30, mistakes := 5,
                              timeLimit := TimeLimit.sec60,
                              elapsed := 60 }] ∧
    (endGame 999 sampleState 5).stats = sampleState.stats :=
  ⟨(endGame_stats 999 sampleState 60).1 (by norm_num),
   (endGame_stats 999 sampleState 5).2 (by norm_num)⟩

/-- C4 counterexample: `endGame` has no idempotence guard. Finalizing the
sample session and then invoking the finalizer again on the already-finalized
state appends a second SessionSummary: the history ends with two records,
not the one record the claim promises. -/
theorem endGame_double_call_appends_twice :
    (endGame 1000 (endGame 999 sampleState 60) 60).stats.length ≠
      sampleState.stats.length + 1 := by
  simp [endGame, sampleState]

/-- C4 amended: the finalizer is not idempotent: each invocation with
elapsed ≥ 10 appends one record, so a second invocation on the
already-finalized state appends a second SessionSummary (two in total). A
synchronous double fire yields one record only because both calls capture the
same pre-finalize state and the second state write overwrites the first, not
because of a guard. -/
theorem endGame_double (now1 now2 : Nat) (s : AppState) (e : Nat)
    (h : 10 ≤ e) :
    (endGame now2 (endGame now1 s e) e).stats.length = s.stats.length + 2 ∧
    (endGame now2 s e).stats.length = s.stats.length + 1 := by
  constructor <;> simp [endGame, if_pos h]

/-- Witness for C4's amended claim at the sample session, elapsed 60. -/
theorem endGame_double_witness :
    (endGame 1000 (endGame 999 sampleState 60) 60).stats.length =
      sampleState.stats.length + 2 ∧
    (endGame 1000 sampleState 60).stats.length =
      sampleState.stats.length + 1 :=
  endGame_double 999 1000 sampleState 60 (by norm_num)

/-- Timer state of `useGameTimer` (source lines 48-78): `timeDisplay` is the
displayed value (remaining seconds for fixed limits, elapsed seconds for
endless) and `elapsed` is `elapsedRef.current`, the count of 1-second ticks.
The display is an integer: for fixed limits it decrements each tick with no
floor at zero. -/
structure TimerState where
  timeDisplay : ℤ
  elapsed : Nat
deriving DecidableEq, Repr

/-- Initial timer state (source line 49): display = the limit for fixed
limits, 0 for endless; no ticks have elapsed. -/
def timerInit (tl : TimeLimit) : TimerState :=
  match tl.limitSeconds with
  | some L => { timeDisplay := (L : ℤ), elapsed := 0 }
  | none => { timeDisplay := 0, elapsed := 0 }

/-- One 1-second tick of the interval callback (source lines 58-65):
increment `elapsedRef`, then decrement the displayed remaining time (fixed
limits) or display the elapsed count (endless). -/
def timerTick (tl : TimeLimit) (s : TimerState) : TimerState :=
  match tl.limitSeconds with
  | some _ => { timeDisplay := s.timeDisplay - 1, elapsed := s.elapsed + 1 }
  | none => { timeDisplay := ((s.elapsed + 1 : Nat) : ℤ), elapsed := s.elapsed + 1 }

/-- Timer state after n ticks. -/
def timerAfter (tl : TimeLimit) : Nat → TimerState
  | 0 => timerInit tl
  | n + 1 => timerTick tl (timerAfter tl n)

/-- End-of-session effect condition (source lines 69-73): for a fixed time
limit, `onEnd(elapsedRef.current)` fires when the displayed time is ≤ 0;
an endless session never auto-ends. -/
def timerFires (tl : TimeLimit) (s : TimerState) : Bool :=
  match tl.limitSeconds with
  | some _ => decide (s.timeDisplay ≤ 0)
  | none => false

/-- Elapsed seconds passed to `onEnd` by an explicit `stop` (source line 75). -/
def stopElapsed (s : TimerState) : Nat := s.elapsed

theorem timerAfter_fixed (tl : TimeLimit) (L : Nat)
    (hL : tl.limitSeconds = some L) (n : Nat) :
    timerAfter tl n = { timeDisplay := (L : ℤ) - n, elapsed := n } := by
  induction n with
  | zero =>
    simp [timerAfter, timerInit, hL]
  | succ k ih =>
    simp only [timerAfter, timerTick, ih, hL, TimerState.mk.injEq]
    constructor
    · push_cast
      ring
    · trivial

theorem timerAfter_endless_elapsed (n : Nat) :
    (timerAfter TimeLimit.endless n).elapsed = n := by
  induction n with
  | zero => rfl
  | succ k ih => simp [timerAfter, timerTick, TimeLimit.limitSeconds, ih]

/-- C8: for a session with fixed limit L the end callback does not fire during
the first L − 1 ticks, fires after exactly L ticks, and reports elapsed = L;
for an unbounded session, stopping after n ticks reports elapsed = n. -/
theorem timer_behaviour (tl : TimeLimit) (L : Nat)
    (hL : tl.limitSeconds = some L) :
    (∀ k, k < L → timerFires tl (timerAfter tl k) = false) ∧
    timerFires tl (timerAfter tl L) = true ∧
    (timerAfter tl L).elapsed = L ∧
    ∀ n, stopElapsed (timerAfter TimeLimit.endless n) = n := by
  refine ⟨?_, ?_, ?_, timerAfter_endless_elapsed⟩
  · intro k hk
    rw [timerAfter_fixed tl L hL k]
    simp only [timerFires, hL]
    rw [decide_eq_false_iff_not]
    omega
  · rw [timerAfter_fixed tl L hL L]
    simp only [timerFires, hL]
    rw [decide_eq_true_eq]
    omega
  · rw [timerAfter_fixed tl L hL L]

/-- Witness for C8 with the 30-second countdown: no fire at tick 29, fire at
tick 30 with elapsed 30; endless stop at tick 47 reports 47. -/
theorem timer_behaviour_witness :
    timerFires TimeLimit.sec30 (timerAfter TimeLimit.sec30 29) = false ∧
    timerFires TimeLimit.sec30 (timerAfter TimeLimit.sec30 30) = true ∧
    (timerAfter TimeLimit.sec30 30).elapsed = 30 ∧
    stopElapsed (timerAfter TimeLimit.endless 47) = 47 :=
  ⟨(timer_behaviour TimeLimit.sec30 30 rfl).1 29 (by norm_num),
   (timer_behaviour TimeLimit.sec30 30 rfl).2.1,
   (timer_behaviour TimeLimit.sec30 30 rfl).2.2.1,
   (timer_behaviour TimeLimit.sec30 30 rfl).2.2.2 47⟩

end PRITraining
